import Mathlib

/-!
# Verification of the census-income SageMaker demo repository

This file gives a shallow embedding, in Lean 4, of the repository-owned
logic of the two notebooks:

* the traffic-replay worker `invoke_endpoint` (drift-monitor notebook,
  final code cell),
* the inference request handler `input_fn` (`script/inference.py`,
  shown in the drift-monitor notebook),
* the data-preparation pipeline of the training notebook
  (`read_csv` / cleaning / `train_test_split` / `ColumnTransformer` /
  `to_csv`).

Python strings are modelled as `List Char`; Python float division is
modelled as exact division in `ℚ` (for every quantity this file reasons
about — in particular the zero test on `int(count/36000*900)` for
`count < 4600` — the float computation and the exact rational one
agree); Python exceptions are modelled with explicit error values.
-/

/-! ## Python string primitives used by `invoke_endpoint` and `input_fn` -/

/-- Python `s.split('\n')`: split a character list at every newline,
keeping empty pieces, so that `splitNL [] = [[]]` just as
`''.split('\n') == ['']`. -/
def splitNL : List Char → List (List Char)
  | [] => [[]]
  | c :: rest =>
    if c = '\n' then [] :: splitNL rest
    else
      match splitNL rest with
      | [] => [[c]]
      | p :: ps => (c :: p) :: ps

/-- Python text-file line iteration: the lines of the content, each line
keeping its terminating newline; a final fragment not ending in a newline
is also a line. -/
def pyLines : List Char → List (List Char)
  | [] => []
  | c :: rest =>
    if c = '\n' then ['\n'] :: pyLines rest
    else
      match pyLines rest with
      | [] => [[c]]
      | l :: ls => (c :: l) :: ls

/-- Python `row.rstrip('\n')`: remove every trailing newline character. -/
def rstripNL (cs : List Char) : List Char :=
  (cs.reverse.dropWhile (fun c => c = '\n')).reverse

/-- Python `int(...)` applied to a (modelled) float: truncation toward
zero. -/
def pyInt (q : ℚ) : ℤ :=
  Int.sign q.num * (q.num.natAbs / q.den : ℕ)

/-! ## The traffic-replay worker `invoke_endpoint`

Source (drift-monitor notebook, cell `terminal-future`):

```
def invoke_endpoint(ep_name, file_name, runtime_client):
    pre_time = time()
    with open(file_name) as f:
        count = len(f.read().split('\n')) - 2 # Remove EOF and header
    ten_hours_in_sec = 10*60*60
    sleep_time = ten_hours_in_sec/count
    with open(file_name, 'r') as f:
        next(f) # Skip header
        for ind, row in enumerate(f):
            start_time = time()
            payload = row.rstrip('\n')
            response = runtime_client(data=payload)
            if (ind+1) % int(count/ten_hours_in_sec*900) == 0:
                print(f'Finished sending {ind+1} records.')
            sleep(max(sleep_time - (time() - start_time), 0))
    print("Done!")
```

The endpoint call `runtime_client(data=payload)` is modelled by a
function `client : List Char → Except E (List Char)`; `Except.error`
models the vendor SDK raising an exception. The value returned by the
model is the list of payloads passed to the client, in order, paired
with the exception (if any) that terminated the loop.
-/

/-- An exception escaping `invoke_endpoint`: the `ZeroDivisionError` of
`count = 0` or of a zero printing modulus, the `StopIteration` of
`next(f)` on an empty file, or an exception raised by the endpoint
client. -/
inductive ReplayErr (E : Type) where
  | zeroDivision : ReplayErr E
  | stopIteration : ReplayErr E
  | client : E → ReplayErr E
deriving DecidableEq

/-- `count` as computed by `invoke_endpoint`:
`len(content.split('\n')) - 2`. -/
def pyCount (content : List Char) : ℤ :=
  ((splitNL content).length : ℤ) - 2

/-- `sleep_time = ten_hours_in_sec/count` (exact-rational model of the
float division; meaningful only when `pyCount content ≠ 0`, the case
`count == 0` raising `ZeroDivisionError` in `invoke_endpoint`). -/
def sleep_time (content : List Char) : ℚ :=
  36000 / (pyCount content : ℚ)

/-- `int(count/ten_hours_in_sec*900)`, the modulus of the progress
print. -/
def printModulus (content : List Char) : ℤ :=
  pyInt ((pyCount content : ℚ) / 36000 * 900)

/-- The argument of `sleep(...)`: the per-call interval minus the time
the call took, clamped below at zero. -/
def actual_sleep (interval elapsed : ℚ) : ℚ :=
  max (interval - elapsed) 0

/-- The `for ind, row in enumerate(f)` body of `invoke_endpoint`,
iterated over the remaining rows. Each iteration strips the row's
trailing newline, passes the payload to the client (an exception there
aborts the loop), then evaluates `(ind+1) % divisor`, which raises
`ZeroDivisionError` when the printing modulus is zero. Returns the
payloads passed to the client, in order, and the terminating exception
if any. -/
def replayRows (client : List Char → Except E (List Char)) (divisor : ℤ) :
    List (List Char) → List (List Char) × Option (ReplayErr E)
  | [] => ([], none)
  | row :: rest =>
    let payload := rstripNL row
    match client payload with
    | Except.error e => ([payload], some (ReplayErr.client e))
    | Except.ok _ =>
      if divisor = 0 then ([payload], some ReplayErr.zeroDivision)
      else
        let r := replayRows client divisor rest
        (payload :: r.1, r.2)

/-- Model of `invoke_endpoint`: compute `count`, fail with
`ZeroDivisionError` if it is zero (the `sleep_time` division), otherwise
skip the header line (`next(f)`, a `StopIteration` on an empty file) and
replay the remaining lines. -/
def invoke_endpoint (client : List Char → Except E (List Char))
    (content : List Char) : List (List Char) × Option (ReplayErr E) :=
  if pyCount content = 0 then ([], some ReplayErr.zeroDivision)
  else
    match pyLines content with
    | [] => ([], some ReplayErr.stopIteration)
    | _header :: rows => replayRows client (printModulus content) rows

/-- The data rows of a file: every line after the first. -/
def dataRows (content : List Char) : List (List Char) :=
  (pyLines content).drop 1

/-- The number of data rows of a file. -/
def dataRowCount (content : List Char) : ℕ :=
  (dataRows content).length

example : splitNL "h\nr1\nr2\n".toList =
    ["h".toList, "r1".toList, "r2".toList, []] := by decide

example : pyLines "h\nr1\nr2".toList =
    ["h\n".toList, "r1\n".toList, "r2".toList] := by decide

example : pyCount "h\nr1\nr2\n".toList = 2 := by decide

example : pyCount "h\nr1\nr2".toList = 1 := by decide

/-- On a nonnegative rational, Python truncation agrees with the floor. -/
theorem pyInt_eq_floor (q : ℚ) (h : 0 ≤ q) : pyInt q = ⌊q⌋ := by
  rcases lt_or_eq_of_le h with hpos | h0
  · have hnum : 0 < q.num := Rat.num_pos.mpr hpos
    unfold pyInt
    rw [Int.sign_eq_one_of_pos hnum, one_mul, Rat.floor_def, Int.ofNat_ediv,
      Int.natAbs_of_nonneg hnum.le]
  · rw [← h0]
    unfold pyInt
    norm_num

/-- For a file whose computed `count` is nonnegative, the progress-print
modulus `int(count/36000*900)` equals the integer division `count / 40`. -/
theorem printModulus_eq (cs : List Char) (h : 0 ≤ pyCount cs) :
    printModulus cs = pyCount cs / 40 := by
  unfold printModulus
  have hq : (pyCount cs : ℚ) / 36000 * 900 = ((pyCount cs : ℚ)) / ((40 : ℕ) : ℚ) := by
    push_cast
    ring
  rw [hq, pyInt_eq_floor _ (by positivity), Rat.floor_intCast_div_natCast]
  norm_num

/-- Unfolding lemma for `invoke_endpoint` with the progress-print modulus
replaced by its value, so that concrete runs can be evaluated by `decide`. -/
theorem invoke_endpoint_eval (client : List Char → Except E (List Char))
    (cs : List Char) (d : ℤ) (hd : printModulus cs = d) :
    invoke_endpoint client cs =
      if pyCount cs = 0 then ([], some ReplayErr.zeroDivision)
      else
        match pyLines cs with
        | [] => ([], some ReplayErr.stopIteration)
        | _header :: rows => replayRows client d rows := by
  subst hd
  rfl

example :
    invoke_endpoint (fun _ => Except.ok []) "h\nr1\nr2\n".toList =
      ([['r', '1']], some (ReplayErr.zeroDivision (E := Unit))) := by
  rw [invoke_endpoint_eval _ _ 0 (by rw [printModulus_eq _ (by decide)]; decide)]
  decide

example : invoke_endpoint (fun _ => Except.ok []) "h".toList =
    ([], (none : Option (ReplayErr Unit))) := by decide

/-! ## Structural lemmas about the file model -/

theorem splitNL_ne_nil (cs : List Char) : splitNL cs ≠ [] := by
  cases cs with
  | nil => simp [splitNL]
  | cons c rest =>
    by_cases hc : c = '\n'
    · simp [splitNL, hc]
    · simp only [splitNL, if_neg hc]
      cases splitNL rest with
      | nil => simp
      | cons p ps => simp

theorem pyLines_ne_nil (c : Char) (rest : List Char) :
    pyLines (c :: rest) ≠ [] := by
  by_cases hc : c = '\n'
  · simp [pyLines, hc]
  · simp only [pyLines, if_neg hc]
    cases pyLines rest with
    | nil => simp
    | cons l ls => simp

theorem splitNL_cons_newline (rest : List Char) :
    splitNL ('\n' :: rest) = [] :: splitNL rest := by
  simp [splitNL]

theorem pyLines_cons_newline (rest : List Char) :
    pyLines ('\n' :: rest) = ['\n'] :: pyLines rest := by
  simp [pyLines]

theorem splitNL_cons_other {c : Char} (hc : c ≠ '\n') (rest : List Char) :
    splitNL (c :: rest) =
      match splitNL rest with
      | [] => [[c]]
      | p :: ps => (c :: p) :: ps := by
  conv_lhs => rw [splitNL.eq_def]
  simp [hc]

theorem pyLines_cons_other {c : Char} (hc : c ≠ '\n') (rest : List Char) :
    pyLines (c :: rest) =
      match pyLines rest with
      | [] => [[c]]
      | l :: ls => (c :: l) :: ls := by
  conv_lhs => rw [pyLines.eq_def]
  simp [hc]

theorem splitNL_cons_other_length {c : Char} (hc : c ≠ '\n') (rest : List Char) :
    (splitNL (c :: rest)).length = (splitNL rest).length := by
  rw [splitNL_cons_other hc]
  rcases hs : splitNL rest with _ | ⟨p, ps⟩
  · exact absurd hs (splitNL_ne_nil rest)
  · simp

theorem pyLines_cons_other_length {c : Char} (hc : c ≠ '\n') (d : Char)
    (rest : List Char) :
    (pyLines (c :: d :: rest)).length = (pyLines (d :: rest)).length := by
  rw [pyLines_cons_other hc]
  rcases hp : pyLines (d :: rest) with _ | ⟨l, ls⟩
  · exact absurd hp (pyLines_ne_nil d rest)
  · simp

/-- On a newline-terminated file, `content.split('\n')` has exactly one
more piece (the final empty one) than the file has lines. -/
theorem splitNL_length_of_newline_terminated :
    ∀ cs : List Char, cs ≠ [] → cs.getLast? = some '\n' →
      (splitNL cs).length = (pyLines cs).length + 1 := by
  intro cs
  induction cs with
  | nil => intro h; exact absurd rfl h
  | cons c rest ih =>
    intro _ hl
    cases rest with
    | nil =>
      simp only [List.getLast?_singleton, Option.some.injEq] at hl
      subst hl
      rfl
    | cons d rest' =>
      have hl' : (d :: rest').getLast? = some '\n' := by
        rwa [List.getLast?_cons_cons] at hl
      have ihr := ih (by simp) hl'
      by_cases hc : c = '\n'
      · subst hc
        rw [splitNL_cons_newline, pyLines_cons_newline, List.length_cons,
          List.length_cons, ihr]
      · rw [splitNL_cons_other_length hc, pyLines_cons_other_length hc, ihr]

/-- On a nonempty newline-terminated file, the `count` computed by
`invoke_endpoint` is exactly the number of data rows (the lines after the
header). -/
theorem pyCount_eq_dataRowCount (cs : List Char)
    (hne : cs ≠ []) (hnl : cs.getLast? = some '\n') :
    pyCount cs = (dataRowCount cs : ℤ) := by
  obtain ⟨c, rest, rfl⟩ : ∃ c rest, cs = c :: rest := by
    cases cs with
    | nil => exact absurd rfl hne
    | cons c rest => exact ⟨c, rest, rfl⟩
  have hlen := splitNL_length_of_newline_terminated _ hne hnl
  have hpl : 1 ≤ (pyLines (c :: rest)).length := by
    cases hp : pyLines (c :: rest) with
    | nil => exact absurd hp (pyLines_ne_nil _ _)
    | cons l ls => simp
  unfold pyCount dataRowCount dataRows
  rw [hlen, List.length_drop]
  omega

/-- When every endpoint call succeeds and the printing modulus is not
zero, the replay loop sends every row, stripped of its trailing newline,
in order, and terminates without an exception. -/
theorem replayRows_success {E : Type}
    (client : List Char → Except E (List Char)) (divisor : ℤ)
    (hdiv : divisor ≠ 0)
    (hclient : ∀ p, ∃ v, client p = Except.ok v) :
    ∀ rows : List (List Char),
      replayRows client divisor rows = (rows.map rstripNL, none) := by
  intro rows
  induction rows with
  | nil => rfl
  | cons r rs ih =>
    obtain ⟨v, hv⟩ := hclient (rstripNL r)
    simp [replayRows, hv, hdiv, ih]

/-! ## Concrete clients and files used in concrete evaluations -/

/-- An endpoint client that succeeds on every payload. -/
def okClient : List Char → Except Unit (List Char) :=
  fun _ => Except.ok []

/-- An endpoint client that raises on the payload `"x"` and succeeds on
every other payload. -/
def failingClient : List Char → Except String (List Char) :=
  fun p => if p = ['x'] then Except.error "boom" else Except.ok []

/-- A newline-terminated file with a header and two data rows. -/
def fileSmall : List Char := "h\nr1\nr2\n".toList

/-- A file with a header and two data rows, not ending in a newline. -/
def fileNoNL : List Char := "h\nr1\nr2".toList

/-- A file containing only a header line, not ending in a newline. -/
def fileHeaderOnly : List Char := "h".toList

/-- A newline-terminated file with a header and 40 identical data rows. -/
def file40 : List Char := 'h' :: '\n' :: (List.replicate 40 ['r', '\n']).flatten

/-- A newline-terminated file with a header, 40 `"r"` rows and a final
`"x"` row. -/
def file41 : List Char :=
  'h' :: '\n' :: ((List.replicate 40 ['r', '\n']).flatten ++ ['x', '\n'])

/-! ## C1: the worker sends exactly the data rows -/

/-- C1 (amended): for every newline-terminated input file with a
header line and at least 40 data rows, and every endpoint client that
succeeds on every payload, `invoke_endpoint` sends exactly the data rows
(every line after the first), one invocation per row, in file order, each
payload the row with its trailing newline removed, and finishes without
an exception — so no row is skipped and no row is sent twice. -/
theorem invoke_endpoint_sends_all_rows {E : Type}
    (client : List Char → Except E (List Char)) (cs : List Char)
    (hne : cs ≠ []) (hnl : cs.getLast? = some '\n')
    (hcount : 40 ≤ dataRowCount cs)
    (hclient : ∀ p, ∃ v, client p = Except.ok v) :
    invoke_endpoint client cs = ((dataRows cs).map rstripNL, none) := by
  have h5 : pyCount cs = (dataRowCount cs : ℤ) := pyCount_eq_dataRowCount cs hne hnl
  have hc0 : pyCount cs ≠ 0 := by
    rw [h5]
    have : (40 : ℤ) ≤ (dataRowCount cs : ℤ) := by exact_mod_cast hcount
    omega
  have hdiv : printModulus cs ≠ 0 := by
    rw [printModulus_eq cs (by rw [h5]; positivity), h5]
    have h40 : (40 : ℤ) ≤ (dataRowCount cs : ℤ) := by exact_mod_cast hcount
    have : (1 : ℤ) ≤ (dataRowCount cs : ℤ) / 40 := by
      calc (1 : ℤ) = 40 / 40 := by norm_num
        _ ≤ (dataRowCount cs : ℤ) / 40 := Int.ediv_le_ediv (by norm_num) h40
    omega
  obtain ⟨c, rest, rfl⟩ : ∃ c rest, cs = c :: rest := by
    cases cs with
    | nil => exact absurd rfl hne
    | cons c rest => exact ⟨c, rest, rfl⟩
  rcases hpl : pyLines (c :: rest) with _ | ⟨hdr, rows⟩
  · exact absurd hpl (pyLines_ne_nil c rest)
  · unfold invoke_endpoint
    rw [if_neg hc0, hpl]
    show replayRows client (printModulus (c :: rest)) rows = _
    rw [replayRows_success _ _ hdiv hclient]
    unfold dataRows
    rw [hpl]
    rfl

/-- The claim C1 as stated is false: on a newline-terminated file with a
header and two data rows, only the first data row is sent before the
progress-print modulus `int(count/36000*900) = 0` raises
`ZeroDivisionError`; the second data row is never sent. -/
theorem invoke_endpoint_small_file_counterexample :
    invoke_endpoint okClient fileSmall =
        ([['r', '1']], some ReplayErr.zeroDivision)
      ∧ (dataRows fileSmall).map rstripNL = [['r', '1'], ['r', '2']] := by
  constructor
  · rw [invoke_endpoint_eval _ _ 0 (by rw [printModulus_eq _ (by decide)]; decide)]
    decide
  · decide

/-- Concrete instance of the amended C1: on a 40-row file every row is
sent and the worker finishes cleanly. -/
theorem invoke_endpoint_sends_all_rows_witness :
    invoke_endpoint okClient file40 = ((dataRows file40).map rstripNL, none) :=
  invoke_endpoint_sends_all_rows okClient file40 (by decide) (by decide)
    (by decide) (fun p => ⟨[], rfl⟩)

/-! ## C2: the per-call sleep interval -/

/-- C2 (amended): for every newline-terminated input file with at
least one data row, the per-call sleep interval computed by
`invoke_endpoint` equals 36000 seconds divided by the number of data rows
(so the scheduled total replay duration is exactly ten hours), and the
sleep performed after a call is the interval minus the time spent on the
call, clamped below at zero. -/
theorem sleep_interval_spec (cs : List Char)
    (hne : cs ≠ []) (hnl : cs.getLast? = some '\n')
    (hd : 1 ≤ dataRowCount cs) :
    sleep_time cs = 36000 / (dataRowCount cs : ℚ)
    ∧ (dataRowCount cs : ℚ) * sleep_time cs = 36000
    ∧ ∀ elapsed : ℚ,
        actual_sleep (sleep_time cs) elapsed = max (sleep_time cs - elapsed) 0
        ∧ 0 ≤ actual_sleep (sleep_time cs) elapsed := by
  have h5 : pyCount cs = (dataRowCount cs : ℤ) := pyCount_eq_dataRowCount cs hne hnl
  have h1 : sleep_time cs = 36000 / (dataRowCount cs : ℚ) := by
    unfold sleep_time
    rw [h5]
    push_cast
    ring
  refine ⟨h1, ?_, fun elapsed => ⟨rfl, le_max_right _ _⟩⟩
  rw [h1]
  have hd0 : (dataRowCount cs : ℚ) ≠ 0 := by
    have : 0 < dataRowCount cs := hd
    positivity
  field_simp

/-- The claim C2 as stated is false: on a file with two data rows that
does not end with a newline, `count` comes out as 1, so the computed
interval is 36000 s rather than 36000/2 s. -/
theorem sleep_interval_counterexample :
    sleep_time fileNoNL ≠ 36000 / (dataRowCount fileNoNL : ℚ)
      ∧ dataRowCount fileNoNL = 2 ∧ sleep_time fileNoNL = 36000 := by
  have h1 : pyCount fileNoNL = 1 := by decide
  have h2 : dataRowCount fileNoNL = 2 := by decide
  have h3 : sleep_time fileNoNL = 36000 := by
    unfold sleep_time
    rw [h1]
    norm_num
  refine ⟨?_, h2, h3⟩
  rw [h3, h2]
  norm_num

/-- Concrete instance of the amended C2: on a newline-terminated file
with one data row the interval is 36000 s and one call accounts for the
full ten hours. -/
theorem sleep_interval_spec_witness :
    sleep_time "h\nr\n".toList = 36000 / (dataRowCount "h\nr\n".toList : ℚ)
    ∧ (dataRowCount "h\nr\n".toList : ℚ) * sleep_time "h\nr\n".toList = 36000
    ∧ actual_sleep (sleep_time "h\nr\n".toList) 5
        = max (sleep_time "h\nr\n".toList - 5) 0 := by
  have h := sleep_interval_spec "h\nr\n".toList (by decide) (by decide) (by decide)
  exact ⟨h.1, h.2.1, (h.2.2 5).1⟩

/-! ## C6: endpoint exceptions propagate and abort the replay -/

/-- If the client succeeds on every row of `pre` and raises `e` on `bad`,
the loop body attempts exactly the rows of `pre` and then `bad` once, and
terminates with `e` unchanged: `bad` is not retried and no row of `post`
is attempted. -/
theorem replayRows_error {E : Type}
    (client : List Char → Except E (List Char)) (divisor : ℤ)
    (hdiv : divisor ≠ 0) (bad : List Char) (e : E)
    (hbad : client (rstripNL bad) = Except.error e) :
    ∀ (pre post : List (List Char)),
      (∀ r ∈ pre, ∃ v, client (rstripNL r) = Except.ok v) →
      replayRows client divisor (pre ++ bad :: post) =
        (pre.map rstripNL ++ [rstripNL bad], some (ReplayErr.client e)) := by
  intro pre
  induction pre with
  | nil =>
    intro post _
    simp [replayRows, hbad]
  | cons r rs ih =>
    intro post hpre
    obtain ⟨v, hv⟩ := hpre r (by simp)
    have ihr := ih post (fun x hx => hpre x (by simp [hx]))
    simp [replayRows, hv, hdiv, ihr]

/-- C6: if an endpoint invocation inside the replay loop raises an
exception, `invoke_endpoint` propagates that exception unchanged — the
failed row is attempted exactly once and no subsequent row of the file is
sent. (The hypothesis `printModulus cs ≠ 0` keeps the progress-print
modulus from raising its own `ZeroDivisionError` first.) -/
theorem invoke_endpoint_error_propagates {E : Type}
    (client : List Char → Except E (List Char)) (cs : List Char)
    (header bad : List Char) (pre post : List (List Char)) (e : E)
    (hlines : pyLines cs = header :: (pre ++ bad :: post))
    (hc0 : pyCount cs ≠ 0)
    (hdiv : printModulus cs ≠ 0)
    (hpre : ∀ r ∈ pre, ∃ v, client (rstripNL r) = Except.ok v)
    (hbad : client (rstripNL bad) = Except.error e) :
    invoke_endpoint client cs =
      (pre.map rstripNL ++ [rstripNL bad], some (ReplayErr.client e)) := by
  unfold invoke_endpoint
  rw [if_neg hc0, hlines]
  show replayRows client (printModulus cs) (pre ++ bad :: post) = _
  exact replayRows_error client _ hdiv bad e hbad pre post hpre

/-- Concrete instance of C6: on a 41-row file whose last row is `"x"`,
with a client that raises `"boom"` on `"x"`, the worker sends the 40
`"r"` rows, attempts `"x"` once, propagates `"boom"`, and stops. -/
theorem invoke_endpoint_error_propagates_witness :
    invoke_endpoint failingClient file41 =
      (List.replicate 40 ['r'] ++ [['x']], some (ReplayErr.client "boom")) := by
  have h := invoke_endpoint_error_propagates failingClient file41
    ['h', '\n'] ['x', '\n'] (List.replicate 40 ['r', '\n']) [] "boom"
    (by decide) (by decide)
    (by rw [printModulus_eq _ (by decide)]; decide)
    (fun r hr => by
      rw [List.eq_of_mem_replicate hr]
      exact ⟨[], rfl⟩)
    rfl
  rw [h]
  decide

/-! ## C7: the replay loop has no cancellation branch -/

/-- A state of the replay loop: the data rows not yet sent and the
payloads already sent. -/
structure ReplayState where
  remaining : List (List Char)
  sent : List (List Char)
deriving DecidableEq

/-- The transition relation of the replay loop body: when rows remain,
the only step is to send the first remaining row (stripped of its
trailing newline). -/
inductive ReplayStep : ReplayState → ReplayState → Prop
  | send (row : List Char) (rest sent : List (List Char)) :
      ReplayStep ⟨row :: rest, sent⟩ ⟨rest, sent ++ [rstripNL row]⟩

theorem replay_trace (rows : List (List Char)) :
    ∀ sent : List (List Char),
      Relation.ReflTransGen ReplayStep ⟨rows, sent⟩
        ⟨[], sent ++ rows.map rstripNL⟩ := by
  induction rows with
  | nil => intro sent; simpa using Relation.ReflTransGen.refl
  | cons r rs ih =>
    intro sent
    refine Relation.ReflTransGen.head (ReplayStep.send r rs sent) ?_
    simpa [List.append_assoc] using ih (sent ++ [rstripNL r])

/-- C7: the replay loop never stops while unsent rows remain. From
every state with at least one remaining row the only transition is to
send that row; a state with no outgoing transition has no remaining rows;
and (with a succeeding client and a nonzero printing modulus) the loop
function's run is exactly the iterated step relation, ending with every
data row sent. -/
theorem replay_no_cancellation {E : Type}
    (client : List Char → Except E (List Char)) (divisor : ℤ)
    (rows : List (List Char))
    (hdiv : divisor ≠ 0)
    (hclient : ∀ p, ∃ v, client p = Except.ok v) :
    (∀ remaining sent, remaining ≠ [] →
        ∃! s' : ReplayState, ReplayStep ⟨remaining, sent⟩ s')
    ∧ (∀ s : ReplayState, (∀ s', ¬ ReplayStep s s') → s.remaining = [])
    ∧ (replayRows client divisor rows).2 = none
    ∧ Relation.ReflTransGen ReplayStep ⟨rows, []⟩
        ⟨[], (replayRows client divisor rows).1⟩ := by
  refine ⟨?_, ?_, ?_, ?_⟩
  · intro remaining sent hne
    rcases remaining with _ | ⟨r, rest⟩
    · exact absurd rfl hne
    · refine ⟨⟨rest, sent ++ [rstripNL r]⟩, ReplayStep.send r rest sent, ?_⟩
      intro s' h
      cases h
      rfl
  · intro s h
    rcases s with ⟨remaining, sent⟩
    rcases remaining with _ | ⟨r, rest⟩
    · rfl
    · exact absurd (ReplayStep.send r rest sent) (h _)
  · rw [replayRows_success _ _ hdiv hclient]
  · rw [replayRows_success _ _ hdiv hclient]
    simpa using replay_trace rows []

/-- Concrete instance of C7: from a state with one remaining row there is
exactly one transition, and the run on a one-row file reaches the final
state with that row sent. -/
theorem replay_no_cancellation_witness :
    (∃! s' : ReplayState, ReplayStep ⟨[['r', '\n']], []⟩ s')
    ∧ Relation.ReflTransGen ReplayStep ⟨[['r', '\n']], []⟩
        ⟨[], (replayRows okClient 1 [['r', '\n']]).1⟩ := by
  have h := replay_no_cancellation okClient 1 [['r', '\n']] (by decide)
    (fun p => ⟨[], rfl⟩)
  exact ⟨h.1 [['r', '\n']] [] (by decide), h.2.2.2⟩

/-! ## C8: small files raise ZeroDivisionError -/

/-- C8 (amended): for every newline-terminated input file with fewer
than 40 data rows (including a header-only file) and a succeeding client,
`invoke_endpoint` raises `ZeroDivisionError` before completing the
replay: with zero data rows the `sleep_time` division `36000/count`
fails, and with 1 to 39 data rows the progress modulus
`int(count/36000*900)` is zero and the first iteration's modulo fails. -/
theorem invoke_endpoint_small_file_zero_division {E : Type}
    (client : List Char → Except E (List Char)) (cs : List Char)
    (hne : cs ≠ []) (hnl : cs.getLast? = some '\n')
    (hlt : dataRowCount cs < 40)
    (hclient : ∀ p, ∃ v, client p = Except.ok v) :
    (invoke_endpoint client cs).2 = some ReplayErr.zeroDivision := by
  have h5 : pyCount cs = (dataRowCount cs : ℤ) := pyCount_eq_dataRowCount cs hne hnl
  by_cases h0 : dataRowCount cs = 0
  · unfold invoke_endpoint
    rw [if_pos (by rw [h5, h0]; rfl)]
  · have hc0 : pyCount cs ≠ 0 := by
      rw [h5]
      exact_mod_cast h0
    have hm : printModulus cs = 0 := by
      rw [printModulus_eq cs (by rw [h5]; positivity), h5]
      refine Int.ediv_eq_zero_of_lt (by positivity) ?_
      exact_mod_cast hlt
    obtain ⟨c, rest, rfl⟩ : ∃ c rest, cs = c :: rest := by
      cases cs with
      | nil => exact absurd rfl hne
      | cons c rest => exact ⟨c, rest, rfl⟩
    rcases hpl : pyLines (c :: rest) with _ | ⟨hdr, rows⟩
    · exact absurd hpl (pyLines_ne_nil c rest)
    · rcases rows with _ | ⟨r, rows'⟩
      · exfalso
        apply h0
        unfold dataRowCount dataRows
        rw [hpl]
        rfl
      · unfold invoke_endpoint
        rw [if_neg hc0, hpl]
        show (replayRows client (printModulus (c :: rest)) (r :: rows')).2
          = some ReplayErr.zeroDivision
        obtain ⟨v, hv⟩ := hclient (rstripNL r)
        simp [replayRows, hv, hm]

/-- The claim C8 as stated is false: a file containing only a header line
with no trailing newline has fewer than 40 data rows, yet
`invoke_endpoint` completes the (empty) replay without raising: `count`
comes out as -1, so neither division fails. -/
theorem small_file_counterexample :
    invoke_endpoint okClient fileHeaderOnly = ([], none)
      ∧ dataRowCount fileHeaderOnly < 40
      ∧ pyCount fileHeaderOnly = -1 := by
  refine ⟨by decide, by decide, by decide⟩

/-- Concrete instance of the amended C8: a newline-terminated header-only
file raises `ZeroDivisionError`. -/
theorem small_file_zero_division_witness :
    (invoke_endpoint okClient "h\n".toList).2 = some ReplayErr.zeroDivision :=
  invoke_endpoint_small_file_zero_division okClient "h\n".toList
    (by decide) (by decide) (by decide) (fun p => ⟨[], rfl⟩)

/-! ## The inference handler `input_fn`

Source (`script/inference.py`, shown in the drift-monitor notebook):

```
def input_fn(request_body, content_type):
    if content_type == "text/csv":
        df = pd.read_csv(StringIO(request_body), header=None)
        X = preprocess.transform(df)
        X_csv = StringIO()
        pd.DataFrame(X).to_csv(X_csv, header=False, index=False)
        req_transformed = X_csv.getvalue().replace('\n', '')
        return xgb_encoders.csv_to_dmatrix(req_transformed)
    else:
        raise ValueError(
            "Content type {} is not supported.".format(content_type)
        )
```

The externally defined pieces are modelled as follows:
`pd.read_csv(..., header=None)` parses the body into its non-blank lines
(pandas skips blank lines by default); the fitted
`preprocess.transform` composed with the per-row rendering of
`pd.DataFrame(X).to_csv` is an arbitrary function
`transformRow : List Char → List Char` from an input CSV record to its
transformed one-line CSV text; `to_csv(header=False, index=False)`
writes each row followed by a newline; `csv_to_dmatrix` is the vendor
encoder, modelled as wrapping the CSV text handed to it. -/

/-- The vendor XgbDMatrix encoder's result, remembering the CSV text it was
given. -/
structure XgbDMatrix where
  data : List Char
deriving DecidableEq

/-- Vendor `xgb_encoders.csv_to_dmatrix`, modelled as wrapping its
input. -/
def csv_to_dmatrix (s : List Char) : XgbDMatrix := ⟨s⟩

/-- `pd.read_csv(StringIO(body), header=None)`: the non-blank lines of
the body, without their trailing newlines. -/
def read_csv_rows (body : List Char) : List (List Char) :=
  ((pyLines body).map rstripNL).filter (fun r => !r.isEmpty)

/-- `pd.DataFrame(rows).to_csv(header=False, index=False)`: every row
followed by a newline. -/
def to_csv_noheader (rows : List (List Char)) : List Char :=
  rows.foldr (fun r acc => r ++ '\n' :: acc) []

/-- Python `s.replace('\n', '')`: remove every newline character. -/
def pyReplaceNL (cs : List Char) : List Char :=
  cs.filter (fun c => c != '\n')

/-- `req_transformed` as built by `input_fn` for a `text/csv` body. -/
def req_transformed (transformRow : List Char → List Char)
    (body : List Char) : List Char :=
  pyReplaceNL (to_csv_noheader ((read_csv_rows body).map transformRow))

/-- Model of `input_fn`: on content type `"text/csv"` return the DMatrix
of the transformed request, otherwise raise `ValueError` with the
source's message. -/
def input_fn (transformRow : List Char → List Char)
    (request_body : List Char) (content_type : String) :
    Except String XgbDMatrix :=
  if content_type = "text/csv" then
    Except.ok (csv_to_dmatrix (req_transformed transformRow request_body))
  else
    Except.error ("Content type " ++ content_type ++ " is not supported.")

/-! ## C9: `input_fn` raises exactly on non-CSV content types -/

/-- C9: `input_fn` raises `ValueError` if and only if its content type is
not exactly `"text/csv"`; on `"text/csv"` it never takes the error branch
and returns the DMatrix of the transformed payload. -/
theorem input_fn_error_iff (transformRow : List Char → List Char)
    (body : List Char) (ct : String) :
    ((∃ msg, input_fn transformRow body ct = Except.error msg)
        ↔ ct ≠ "text/csv")
    ∧ input_fn transformRow body "text/csv"
        = Except.ok (csv_to_dmatrix (req_transformed transformRow body)) := by
  constructor
  · constructor
    · rintro ⟨msg, hm⟩ hct
      rw [input_fn, if_pos hct] at hm
      exact absurd hm (by simp)
    · intro hct
      exact ⟨_, by rw [input_fn, if_neg hct]⟩
  · rw [input_fn, if_pos rfl]

/-- Concrete instance of C9: a JSON content type is rejected with
`ValueError` and a CSV one is accepted. -/
theorem input_fn_error_iff_witness :
    (∃ msg, input_fn (fun r => r) ['1'] "application/json"
        = Except.error msg)
    ∧ input_fn (fun r => r) ['1'] "text/csv"
        = Except.ok (csv_to_dmatrix (req_transformed (fun r => r) ['1'])) :=
  ⟨(input_fn_error_iff (fun r => r) ['1'] "application/json").1.mpr
      (by decide),
    (input_fn_error_iff (fun r => r) ['1'] "application/json").2⟩

/-! ## C10: the transformed request is a single CSV record -/

/-- Removing newlines from the no-header CSV rendering of newline-free
rows concatenates the rows. -/
theorem pyReplaceNL_to_csv (rows : List (List Char))
    (h : ∀ r ∈ rows, '\n' ∉ r) :
    pyReplaceNL (to_csv_noheader rows) = rows.flatten := by
  induction rows with
  | nil => rfl
  | cons r rs ih =>
    have hr : ∀ a ∈ r, (a != '\n') = true := by
      intro a ha
      have hne : a ≠ '\n' := fun hea => h r (by simp) (hea ▸ ha)
      simpa using hne
    have hrs := ih (fun x hx => h x (List.mem_cons_of_mem _ hx))
    show pyReplaceNL (r ++ '\n' :: to_csv_noheader rs) = r ++ rs.flatten
    unfold pyReplaceNL at hrs ⊢
    rw [List.filter_append, List.filter_eq_self.mpr hr,
      List.filter_cons_of_neg (by simp), hrs]

/-- C10: `input_fn` removes every newline from the CSV it builds, so the
string passed to the DMatrix encoder always encodes a single CSV record;
when the transformed rows themselves contain no newline, a multi-row body
is collapsed into the concatenation of its transformed rows rather than
kept as separate records. -/
theorem req_transformed_single_record (transformRow : List Char → List Char)
    (body : List Char) :
    '\n' ∉ req_transformed transformRow body
    ∧ ((∀ r, '\n' ∉ transformRow r) →
        req_transformed transformRow body
          = ((read_csv_rows body).map transformRow).flatten) := by
  constructor
  · intro h
    simp [req_transformed, pyReplaceNL, List.mem_filter] at h
  · intro hnl
    unfold req_transformed
    refine pyReplaceNL_to_csv _ ?_
    intro r hr
    obtain ⟨r0, _, rfl⟩ := List.mem_map.mp hr
    exact hnl r0

/-- Concrete instance of C10: a two-row body whose rows transform to
`"1.0"` and `"2.0"` is collapsed into the single record `"1.02.0"`. -/
theorem req_transformed_single_record_witness :
    '\n' ∉ req_transformed (fun r => r.filter (fun c => c != '\n'))
      "a,b\nc,d\n".toList
    ∧ req_transformed (fun r => r.filter (fun c => c != '\n'))
      "a,b\nc,d\n".toList = "a,bc,d".toList := by
  have h := req_transformed_single_record
    (fun r => r.filter (fun c => c != '\n')) "a,b\nc,d\n".toList
  refine ⟨h.1, (h.2 ?_).trans (by decide)⟩
  intro r hr
  simp at hr

/-! ## The training notebook's data-preparation pipeline

Source (training notebook, cells `30bfcddf`, `8a8e6f77`, `62f47bdc`,
`363d8efa`):

```
column_names = ["age", "workclass", "fnlwgt", "education",
  "education-num", "marital-status", "occupation", "relationship",
  "race", "sex", "capital-gain", "capital-loss", "hours-per-week",
  "native-country", "income"]
df = pd.read_csv('data/adult.csv', names = column_names)
df.replace('?',np.NaN,inplace=True)
cols = df.columns[df.dtypes == "object"]
for i in cols:
    df[i] = df[i].str.replace(" ", "")
df_train_val, df_test, = train_test_split(df, test_size=0.1,
    random_state=42)
df_train_val_no_target = df_train_val.drop('income', axis=1)
df_train_val.to_csv('data/train.csv', index=False)
df_test.to_csv('data/test.csv', index=False)
...
X = preprocessor.fit_transform(df_train_val_no_target)   # impute+onehot
...
X_train, X_val, = train_test_split(X, test_size=0.2, random_state=42)
...
xgb.fit({'train': ..., 'validation': ...})
```
-/

/-- Model of `sklearn.model_selection.train_test_split` with a fixed
`random_state`: the library draws a seed-determined pseudo-random
permutation of the input rows and returns first the complement of the
test fraction (`df_train_val` / `X_train`) and second the test fraction
(`df_test` / `X_val`). The already permuted row list is passed in
explicitly, and `nTest` is the resulting number of test rows. -/
def train_test_split (shuffled : List α) (nTest : ℕ) : List α × List α :=
  (shuffled.drop nTest, shuffled.take nTest)

/-! ## C3: the order of the pipeline steps -/

/-- The successive data-preparation steps of the training notebook, in
the order its cells execute them: cell `30bfcddf` loads the CSV, cleans
cells, splits off the test partition and writes `train.csv`/`test.csv`;
cell `8a8e6f77` fits the imputation/one-hot `ColumnTransformer` on the
train+validation part; cell `62f47bdc` splits that part into train and
validation matrices; cell `363d8efa` fits the XGBoost model. -/
inductive PipelineStep where
  | loadCSV : PipelineStep
  | splitOffTest : PipelineStep
  | imputeEncode : PipelineStep
  | splitTrainVal : PipelineStep
  | fitModel : PipelineStep
deriving DecidableEq

/-- The notebook's pipeline as the sequence of its steps. -/
def pipeline : List PipelineStep :=
  [PipelineStep.loadCSV, PipelineStep.splitOffTest,
   PipelineStep.imputeEncode, PipelineStep.splitTrainVal,
   PipelineStep.fitModel]

/-- C3 (amended): the pipeline loads the CSV, then splits off the test
partition, then imputes and one-hot-encodes the train+validation
features, then splits them into train and validation partitions, then
fits the model; the imputation and one-hot encoding run after the test
split and before the train/validation split. -/
theorem pipeline_order :
    List.indexOf PipelineStep.loadCSV pipeline
        < List.indexOf PipelineStep.splitOffTest pipeline
    ∧ List.indexOf PipelineStep.splitOffTest pipeline
        < List.indexOf PipelineStep.imputeEncode pipeline
    ∧ List.indexOf PipelineStep.imputeEncode pipeline
        < List.indexOf PipelineStep.splitTrainVal pipeline
    ∧ List.indexOf PipelineStep.splitTrainVal pipeline
        < List.indexOf PipelineStep.fitModel pipeline := by
  decide

/-- The claim C3 as stated is false: the split that produces the test
partition precedes the imputation/one-hot encoding step in the
notebook, so the encoding is not applied before the data is split into
partitions. -/
theorem pipeline_order_counterexample :
    List.indexOf PipelineStep.splitOffTest pipeline
      < List.indexOf PipelineStep.imputeEncode pipeline := by
  decide

/-! ## C4: the partitions are pairwise disjoint

The second `train_test_split` call splits `X`, whose rows are in
one-to-one positional correspondence with the rows of `df_train_val`
(the `ColumnTransformer` transforms each row independently and
`np.insert` adds a column), so its row-provenance is modelled by
splitting the `df_train_val` rows themselves. -/

/-- C4: the test partition of the first `train_test_split` call and the
train and validation partitions of the second are pairwise disjoint:
when the original dataset has no duplicate row, no row appears in more
than one of the three partitions. -/
theorem partitions_disjoint {α : Type} (df s1 s2 : List α) (n1 n2 : ℕ)
    (hnd : df.Nodup) (hp1 : s1.Perm df)
    (hp2 : s2.Perm (train_test_split s1 n1).1) :
    (train_test_split s1 n1).2.Disjoint (train_test_split s2 n2).1
    ∧ (train_test_split s1 n1).2.Disjoint (train_test_split s2 n2).2
    ∧ (train_test_split s2 n2).1.Disjoint (train_test_split s2 n2).2 := by
  have hs1 : s1.Nodup := hp1.nodup_iff.mpr hnd
  have hd1 : (s1.take n1).Disjoint (s1.drop n1) :=
    List.disjoint_take_drop hs1 le_rfl
  have htv : (s1.drop n1).Nodup := (List.drop_sublist n1 s1).nodup hs1
  have hs2 : s2.Nodup := hp2.nodup_iff.mpr htv
  have hd2 : (s2.take n2).Disjoint (s2.drop n2) :=
    List.disjoint_take_drop hs2 le_rfl
  have hsub : ∀ a, a ∈ s2 → a ∈ s1.drop n1 := fun a ha => hp2.subset ha
  refine ⟨?_, ?_, ?_⟩
  · intro a ha hb
    exact hd1 ha (hsub a (List.drop_subset _ _ hb))
  · intro a ha hb
    exact hd1 ha (hsub a (List.take_subset _ _ hb))
  · intro a ha hb
    exact hd2 hb ha

/-- Concrete instance of C4 on a five-row dataset split 1 + (3 + 1). -/
theorem partitions_disjoint_witness :
    (train_test_split [0, 1, 2, 3, 4] 1).2.Disjoint
        (train_test_split [1, 2, 3, 4] 1).1
    ∧ (train_test_split [0, 1, 2, 3, 4] 1).2.Disjoint
        (train_test_split [1, 2, 3, 4] 1).2
    ∧ (train_test_split [1, 2, 3, 4] 1).1.Disjoint
        (train_test_split [1, 2, 3, 4] 1).2 :=
  partitions_disjoint [0, 1, 2, 3, 4] [0, 1, 2, 3, 4] [1, 2, 3, 4] 1 1
    (by decide) (List.Perm.refl _) (List.Perm.refl _)

/-! ## C5: the census schema and the written CSV headers -/

/-- The 15 column names of the census schema, as passed to
`pd.read_csv(names=...)` in the training notebook. -/
def column_names : List String :=
  ["age", "workclass", "fnlwgt", "education", "education-num",
   "marital-status", "occupation", "relationship", "race", "sex",
   "capital-gain", "capital-loss", "hours-per-week", "native-country",
   "income"]

/-- A pandas dataframe, as used by the notebook: named columns and rows
of cells. -/
structure DataFrame where
  columns : List String
  rows : List (List String)
deriving DecidableEq

/-- `pd.read_csv('data/adult.csv', names=column_names)`: label the raw
rows with the given column names. -/
def read_csv (names : List String) (raw : List (List String)) : DataFrame :=
  ⟨names, raw⟩

/-- The notebook's cell cleaning — `df.replace('?', np.NaN)` followed by
`df[i].str.replace(" ", "")` on the object columns — modelled cell-wise:
a cell equal to `"?"` becomes NaN, otherwise its spaces are dropped. It
never changes the number of cells in a row. -/
def cleanCell (s : String) : String :=
  if s = "?" then "NaN" else (s.toList.filter (fun c => c != ' ')).asString

/-- The cleaning applied to the whole dataframe. -/
def clean_df (df : DataFrame) : DataFrame :=
  ⟨df.columns, df.rows.map (List.map cleanCell)⟩

/-- `df.to_csv(..., index=False)`: a header line with the column names
comma-joined (pandas writes the header by default), then one line per
row with its cells comma-joined. -/
def to_csv_lines (df : DataFrame) : List String :=
  String.intercalate "," df.columns :: df.rows.map (String.intercalate ",")

/-- The fields of a CSV line: split at every comma. -/
def splitComma : List Char → List (List Char)
  | [] => [[]]
  | c :: rest =>
    if c = ',' then [] :: splitComma rest
    else
      match splitComma rest with
      | [] => [[c]]
      | p :: ps => (c :: p) :: ps

/-- C5: the census schema has exactly 15 named columns, and the CSV
splits written by the pipeline (`train.csv` from `df_train_val` and
`test.csv` from `df_test`) each begin with a header line whose fields
are exactly those 15 column names in order, matching the 15 cells of
every data row that follows (given that every raw input row has 15
cells). -/
theorem csv_splits_header (raw s1 : List (List String)) (n1 : ℕ)
    (hperm : s1.Perm (clean_df (read_csv column_names raw)).rows)
    (hw : ∀ r ∈ raw, r.length = 15) :
    column_names.length = 15
    ∧ splitComma (String.intercalate "," column_names).toList
        = column_names.map String.toList
    ∧ (to_csv_lines ⟨column_names, (train_test_split s1 n1).1⟩).head?
        = some (String.intercalate "," column_names)
    ∧ (to_csv_lines ⟨column_names, (train_test_split s1 n1).2⟩).head?
        = some (String.intercalate "," column_names)
    ∧ (∀ r ∈ (train_test_split s1 n1).1, r.length = column_names.length)
    ∧ (∀ r ∈ (train_test_split s1 n1).2, r.length = column_names.length) := by
  have hlen : ∀ r ∈ s1, r.length = 15 := by
    intro r hr
    have hmem : r ∈ (clean_df (read_csv column_names raw)).rows :=
      hperm.subset hr
    simp only [clean_df, read_csv, List.mem_map] at hmem
    obtain ⟨r0, hr0, rfl⟩ := hmem
    rw [List.length_map]
    exact hw r0 hr0
  refine ⟨by decide, by decide, rfl, rfl, ?_, ?_⟩
  · intro r hr
    exact (hlen r (List.drop_subset _ _ hr)).trans (by decide)
  · intro r hr
    exact (hlen r (List.take_subset _ _ hr)).trans (by decide)

/-- A two-row raw dataset with 15 cells per row, used to instantiate
C5. -/
def sampleRaw : List (List String) :=
  [List.replicate 15 "a", List.replicate 15 "b"]

/-- Concrete instance of C5 on `sampleRaw`, split into one test row and
one train+validation row. -/
theorem csv_splits_header_witness :
    column_names.length = 15
    ∧ splitComma (String.intercalate "," column_names).toList
        = column_names.map String.toList
    ∧ (to_csv_lines ⟨column_names,
          (train_test_split (clean_df (read_csv column_names sampleRaw)).rows 1).1⟩).head?
        = some (String.intercalate "," column_names)
    ∧ (to_csv_lines ⟨column_names,
          (train_test_split (clean_df (read_csv column_names sampleRaw)).rows 1).2⟩).head?
        = some (String.intercalate "," column_names)
    ∧ (List.map cleanCell (List.replicate 15 "b")).length
        = column_names.length := by
  have h := csv_splits_header sampleRaw
    (clean_df (read_csv column_names sampleRaw)).rows 1
    (List.Perm.refl _) (by decide)
  refine ⟨h.1, h.2.1, h.2.2.1, h.2.2.2.1, ?_⟩
  exact h.2.2.2.2.1 ((List.replicate 15 "b").map cleanCell) (by decide)
